import Mathlib

/-!
Verification of the trigger/acquisition coordination logic of the
`ssb-live-reconstruction` example notebook: the `AcquisitionState` holder,
the `trigger` function submitting the blocking `do_scan` action to a
single-worker thread pool, the `with c:` control-channel scopes, and the
run cell with its try/finally teardown that awaits the stored future.

The Python code is shallowly embedded: the small statement language
`PyProg` covers the statements the notebook's coordination code uses
(prints, sleeps, channel commands, the `with c:` scope, raising), and
`runProg` is its interpreter producing an outcome, a channel state and a
trace of observable events.  Thread-pool submission runs the task body
under a `worker` thread tag, so the caller's (main-thread) observations
remain separate from the background action's.
-/

/-- A value sent with a Merlin `SET` command: the notebook sends numbers
(e.g. `dwell_time * 1e3`, embedded as rationals) and strings (paths). -/
inductive MVal
  | num (q : ℚ)
  | str (s : String)
deriving DecidableEq, Repr

/-- A command sent over the Merlin control channel: `c.set(key, value)`
or `c.cmd(name)` (from `MerlinControl` of libertem-live). -/
inductive MerlinCommand
  | set (key : String) (value : MVal)
  | cmd (name : String)
deriving DecidableEq, Repr

/-- The exception taxonomy of the spec, plus Python's `ValueError` raised
when tuple unpacking of `aq.shape.nav` fails, and `RuntimeError` covering
arbitrary failures of external calls. -/
inductive PyErr
  | connectionError
  | protocolError (c : MerlinCommand)
  | ioError (c : MerlinCommand)
  | valueError (msg : String)
  | runtimeError (msg : String)
deriving DecidableEq, Repr

/-- Observable events emitted while the notebook's coordination code runs.
`submit fid` is `pool.submit(...)` returning future `fid`; `await fid` is
`fut.result()`; `acqFrames` stands for the external acquisition loop of
`ctx.run_udf` consuming frames. -/
inductive Event
  | print (msg : String)
  | sleep (seconds : ℚ)
  | chanOpen
  | chanClose
  | send (c : MerlinCommand)
  | submit (fid : Nat)
  | await (fid : Nat)
  | acqFrames
deriving DecidableEq, Repr

/-- Which thread performs an event: the caller's main thread, or the
single worker of `concurrent.futures.ThreadPoolExecutor(1)`. -/
inductive Thread
  | main
  | worker
deriving DecidableEq, Repr

/-- A thread-tagged event. -/
abbrev TEvent := Thread × Event

/-- Fault model: which channel commands raise which exception when sent
(the detector control service is external; a command may fail with
`ProtocolError`/`IOError` per the spec, or succeed). -/
abbrev FaultModel := MerlinCommand → Option PyErr

/-- The fault-free model: every command succeeds. -/
def noFault : FaultModel := fun _ => none

/-- Fault model where exactly the `SOFTTRIGGER` command raises `e`:
the background trigger action fails, everything else succeeds. -/
def softTriggerFault (e : PyErr) : FaultModel :=
  fun c => if c = MerlinCommand.cmd "SOFTTRIGGER" then some e else none

/-- `class AcquisitionState`: process-wide holder of the outcome handle of
the asynchronous trigger action.  `__init__` sets `self.trigger_result = None`;
the embedding is generic in the handle type (the notebook stores a
`concurrent.futures.Future`; the session embedding stores its id). -/
structure AcquisitionState (α : Type) where
  trigger_result : Option α
deriving DecidableEq, Repr

/-- `AcquisitionState.__init__`: `self.trigger_result = None`. -/
def AcquisitionState.init {α : Type} : AcquisitionState α := ⟨none⟩

/-- `set_trigger_result(self, result)`: plain attribute assignment
`self.trigger_result = result` — no guard, no error on overwrite. -/
def AcquisitionState.set_trigger_result {α : Type}
    (s : AcquisitionState α) (result : α) : AcquisitionState α :=
  { s with trigger_result := some result }

/-- Reading the stored handle (the run cell reads the attribute
`acquisition_state.trigger_result` directly; the spec names this reader
`get_trigger_result`).  Returns `none` when no trigger has been issued. -/
def AcquisitionState.get_trigger_result {α : Type}
    (s : AcquisitionState α) : Option α :=
  s.trigger_result

/-- The control channel's connection state (opened by `MerlinControl.__enter__`,
closed by `__exit__`, per the scoped-lifecycle contract of the spec). -/
structure ChanState where
  connected : Bool
deriving DecidableEq, Repr

/-- The statement language of the notebook's coordination code: prints,
`time.sleep`, channel commands, the scoped `with c:` block, and raising
(used for the `ValueError` of a failed tuple unpacking). -/
inductive PyProg
  | skip
  | print (msg : String)
  | sleep (seconds : ℚ)
  | send (c : MerlinCommand)
  | raiseErr (e : PyErr)
  | seq (a b : PyProg)
  | withChan (body : PyProg)
deriving DecidableEq, Repr

/-- Interpreter for `PyProg`: returns the outcome (`Except.error e` when an
exception propagates), the final channel state, and the event trace.
`withChan` models Python's `with c:` — `__enter__` connects, the body runs,
and `__exit__` disconnects on every exit path, normal or exceptional. -/
def runProg (fault : FaultModel) : PyProg → ChanState → Except PyErr Unit × ChanState × List Event
  | PyProg.skip, st => (Except.ok (), st, [])
  | PyProg.print m, st => (Except.ok (), st, [Event.print m])
  | PyProg.sleep d, st => (Except.ok (), st, [Event.sleep d])
  | PyProg.send c, st =>
      match fault c with
      | none => (Except.ok (), st, [Event.send c])
      | some e => (Except.error e, st, [Event.send c])
  | PyProg.raiseErr e, st => (Except.error e, st, [])
  | PyProg.seq a b, st =>
      match runProg fault a st with
      | (Except.error e, st1, tr1) => (Except.error e, st1, tr1)
      | (Except.ok _, st1, tr1) =>
          match runProg fault b st1 with
          | (r2, st2, tr2) => (r2, st2, tr1 ++ tr2)
  | PyProg.withChan body, st =>
      match runProg fault body { st with connected := true } with
      | (r, st1, tr) =>
          (r, { st1 with connected := false },
            Event.chanOpen :: (tr ++ [Event.chanClose]))

/-- The shape of an acquisition: `aq.shape.nav` (scan grid) and
`aq.shape.sig` (detector frame), each a sequence of dimensions. -/
structure AqShape where
  nav : List Nat
  sig : List Nat
deriving DecidableEq, Repr

/-- The acquisition descriptor `aq` produced by `ctx.prepare_acquisition`
(external); the coordination code only reads `aq.shape`. -/
structure Aq where
  shape : AqShape
deriving DecidableEq, Repr

/-- An acquisition descriptor with navigation shape `[h, w]` (the notebook
uses `SCAN_SIZE = (128, 128)`). -/
def mkAq (h w : Nat) (sig : List Nat) : Aq := ⟨⟨[h, w], sig⟩⟩

/-- Python tuple unpacking `height, width = xs`: succeeds exactly on
two-element sequences, else `ValueError`. -/
def unpack2 : List Nat → Option (Nat × Nat)
  | [h, w] => some (h, w)
  | _ => none

/-- `merlin_setup(c, dwell_time=1e-3, depth=6, save_path=None)`:
the configuration commands sent inside the setup scope. -/
def merlin_setup_prog (dwell_time : ℚ) (depth : ℚ) (save_path : Option String) : PyProg :=
  PyProg.seq (PyProg.print "Setting Merlin acquisition parameters")
  (PyProg.seq (PyProg.send (MerlinCommand.set "CONTINUOUSRW" (MVal.num 1)))
  (PyProg.seq (PyProg.send (MerlinCommand.set "ACQUISITIONTIME" (MVal.num (dwell_time * 1000))))
  (PyProg.seq (PyProg.send (MerlinCommand.set "COUNTERDEPTH" (MVal.num depth)))
  (PyProg.seq (PyProg.send (MerlinCommand.set "TRIGGERSTART" (MVal.num 5)))
  (PyProg.seq (PyProg.send (MerlinCommand.set "RUNHEADLESS" (MVal.num 1)))
  (PyProg.seq (PyProg.send (MerlinCommand.set "FILEFORMAT" (MVal.num 2)))
  (PyProg.seq
    (match save_path with
     | some p =>
        PyProg.seq (PyProg.send (MerlinCommand.set "IMAGESPERFILE" (MVal.num 256)))
        (PyProg.seq (PyProg.send (MerlinCommand.set "FILEENABLE" (MVal.num 1)))
        (PyProg.seq (PyProg.send (MerlinCommand.set "USETIMESTAMPING" (MVal.num 0)))
        (PyProg.seq (PyProg.send (MerlinCommand.set "FILEFORMAT" (MVal.num 2)))
        (PyProg.send (MerlinCommand.set "FILEDIRECTORY" (MVal.str p))))))
     | none => PyProg.send (MerlinCommand.set "FILEENABLE" (MVal.num 0)))
  (PyProg.print "Finished Merlin setup."))))))))

/-- `microscope_setup(dwell_time=1e-3)`: `pass` (all instructions are
commented out in the notebook). -/
def microscope_setup_prog : PyProg := PyProg.skip

/-- `set_nav(c, aq)`: unpacks `aq.shape.nav` (raising `ValueError` if it is
not a pair), then sets the frame counts to `height * width`. -/
def set_nav_prog (aq : Aq) : PyProg :=
  match unpack2 aq.shape.nav with
  | none => PyProg.raiseErr (PyErr.valueError "set_nav: cannot unpack aq.shape.nav")
  | some (height, width) =>
      PyProg.seq (PyProg.print "Setting resolution...")
      (PyProg.seq
        (PyProg.send (MerlinCommand.set "NUMFRAMESTOACQUIRE" (MVal.num ((height * width : Nat) : ℚ))))
        (PyProg.send (MerlinCommand.set "NUMFRAMESPERTRIGGER" (MVal.num ((height * width : Nat) : ℚ)))))

/-- `arm(c)`: prints, sends `STARTACQUISITION`, prints. -/
def arm_prog : PyProg :=
  PyProg.seq (PyProg.print "Arming Merlin...")
  (PyProg.seq (PyProg.send (MerlinCommand.cmd "STARTACQUISITION"))
  (PyProg.print "Merlin ready for trigger."))

/-- The setup/arm scope of the run cell:
`with c: merlin_setup(c); microscope_setup(); set_nav(c, aq); arm(c)`
with the notebook's default arguments. -/
def setup_scope_prog (aq : Aq) : PyProg :=
  PyProg.withChan
    (PyProg.seq (merlin_setup_prog (1/1000) 6 none)
    (PyProg.seq microscope_setup_prog
    (PyProg.seq (set_nav_prog aq) arm_prog)))

/-- `do_scan()`, the action submitted to the pool by `trigger`:
`print("do_scan()")` then `with c: c.cmd('SOFTTRIGGER')`. -/
def do_scan_prog : PyProg :=
  PyProg.seq (PyProg.print "do_scan()")
    (PyProg.withChan (PyProg.send (MerlinCommand.cmd "SOFTTRIGGER")))

/-- `ThreadPoolExecutor(1)`: the pool is created with exactly one worker. -/
def pool_max_workers : Nat := 1

deriving instance DecidableEq for Except

/-- State of the thread pool `pool = concurrent.futures.ThreadPoolExecutor(1)`:
the id handed to the next submitted task, the submitted tasks, and each
completed task's outcome (a `Future` captures its action's result or
exception; `fut.result()` re-raises a captured exception). -/
structure PoolState where
  nextId : Nat
  tasks : List (Nat × PyProg)
  results : List (Nat × Except PyErr Unit)
deriving DecidableEq, Repr

/-- A fresh pool: no tasks submitted yet. -/
def PoolState.init : PoolState := ⟨0, [], []⟩

/-- The coordination state shared by the notebook cells: the control
channel `c`, the pool, and the global `acquisition_state` (storing the
submitted future's id). -/
structure SysState where
  chan : ChanState
  pool : PoolState
  acq : AcquisitionState Nat
deriving DecidableEq, Repr

/-- The state after the globals cells ran: channel closed, fresh pool,
`acquisition_state = AcquisitionState()`. -/
def SysState.init : SysState := ⟨⟨false⟩, PoolState.init, AcquisitionState.init⟩

/-- Submitting a task to the single-worker pool: `fut = pool.submit(do_scan)`
returns a future id at once; the worker executes the task's body (its
events are tagged `Thread.worker`) and the future captures the outcome.
`fut.result()` later returns that captured outcome. -/
def PoolState.submit (fault : FaultModel) (t : PyProg)
    (pool : PoolState) (chan : ChanState) :
    Nat × PoolState × ChanState × List TEvent :=
  let fid := pool.nextId
  match runProg fault t chan with
  | (r, chan1, tr) =>
      (fid,
       { nextId := fid + 1,
         tasks := pool.tasks ++ [(fid, t)],
         results := pool.results ++ [(fid, r)] },
       chan1,
       tr.map (fun e => (Thread.worker, e)))

/-- `fut.result()`: the outcome captured by future `fid` — the value on
success, the re-raised exception on failure.  (`result()` blocks until the
worker finishes; the embedding looks up the worker's recorded outcome.) -/
def PoolState.awaitResult (pool : PoolState) (fid : Nat) : Except PyErr Unit :=
  (pool.results.lookup fid).getD (Except.ok ())

/-- `trigger(aq)`: prints, sleeps one second (settle delay), unpacks
`aq.shape.nav` (`height`/`width` are unused afterwards — the real scan call
is commented out), submits `do_scan` to the pool, and stores the returned
future in `acquisition_state`.  It never waits on the future. -/
def trigger (fault : FaultModel) (aq : Aq) (st : SysState) :
    Except PyErr Unit × SysState × List TEvent :=
  let pre : List TEvent :=
    [(Thread.main, Event.print "Triggering!"), (Thread.main, Event.sleep 1)]
  match unpack2 aq.shape.nav with
  | none =>
      (Except.error (PyErr.valueError "trigger: cannot unpack aq.shape.nav"), st, pre)
  | some _ =>
      match PoolState.submit fault do_scan_prog st.pool st.chan with
      | (fid, pool1, chan1, wtr) =>
          (Except.ok (),
           { chan := chan1, pool := pool1,
             acq := st.acq.set_trigger_result fid },
           pre ++ [(Thread.main, Event.submit fid)] ++ wtr)

/-- Modelled from the spec: `ctx.run_udf(dataset=aq, udf=..., plots=plots)`
is external (LiberTEM-live).  Per the spec's interface contract, the runner
calls the registered `trigger(aq)` callback once per session before frame
collection begins, then consumes frames (`acqFrames`), finishing with an
outcome `loopResult` of its own (the frame loop may raise).  An exception
raised by `trigger` itself propagates out of `run_udf`. -/
def run_udf (fault : FaultModel) (aq : Aq) (loopResult : Except PyErr Unit)
    (st : SysState) : Except PyErr Unit × SysState × List TEvent :=
  match trigger fault aq st with
  | (Except.error e, st1, tr) => (Except.error e, st1, tr)
  | (Except.ok _, st1, tr) =>
      (loopResult, st1, tr ++ [(Thread.main, Event.acqFrames)])

/-- The `finally:` block of the run cell:
`if acquisition_state.trigger_result is not None:` print, then
`print(f"result = {acquisition_state.trigger_result.result()}")` — awaiting
the stored future re-raises a captured exception, in which case the print
never happens and the exception propagates out of the finally block.
(The inner `try ... finally: pass` is the identity and is elided.) -/
def teardown (st : SysState) : Except PyErr Unit × SysState × List TEvent :=
  match st.acq.trigger_result with
  | none => (Except.ok (), st, [])
  | some fid =>
      let pre : List TEvent :=
        [(Thread.main, Event.print "Waiting for blocking scan function..."),
         (Thread.main, Event.await fid)]
      match st.pool.awaitResult fid with
      | Except.error e => (Except.error e, st, pre)
      | Except.ok _ =>
          (Except.ok (), st, pre ++ [(Thread.main, Event.print "result = None")])

/-- The run cell: `c = MerlinControl(...)`; print; the setup/arm scope
`with c: merlin_setup(c); microscope_setup(); set_nav(c, aq); arm(c)`;
then `try: ctx.run_udf(...) finally: <teardown>`; then `print("Finished.")`.
Python's try/finally: the finally block always runs; if it raises, its
exception replaces the body's; otherwise the body's outcome stands. -/
def runCell (fault : FaultModel) (aq : Aq) (loopResult : Except PyErr Unit) :
    Except PyErr Unit × SysState × List TEvent :=
  let st0 := SysState.init
  match runProg fault (setup_scope_prog aq) st0.chan with
  | (r1, chan1, tr1) =>
    let st1 : SysState := { st0 with chan := chan1 }
    let pre : List TEvent :=
      (Thread.main, Event.print "Connecting Merlin control...") ::
        tr1.map (fun e => (Thread.main, e))
    match r1 with
    | Except.error e => (Except.error e, st1, pre)
    | Except.ok _ =>
        match run_udf fault aq loopResult st1 with
        | (rBody, st2, tr2) =>
            match teardown st2 with
            | (rFin, st3, tr3) =>
                match (match rFin with
                       | Except.error e2 => Except.error e2
                       | Except.ok _ => rBody : Except PyErr Unit) with
                | Except.error e => (Except.error e, st3, pre ++ tr2 ++ tr3)
                | Except.ok _ =>
                    (Except.ok (), st3,
                     pre ++ tr2 ++ tr3 ++ [(Thread.main, Event.print "Finished.")])

/-- Is this event performed by the caller's (main) thread? -/
def isMain (te : TEvent) : Bool := te.1 == Thread.main

/-- The events a caller observes on its own thread, in order. -/
def mainEvents (tr : List TEvent) : List Event :=
  (tr.filter isMain).map Prod.snd

/-- Wall-clock duration of one event, given a duration `cmdDur c` for each
channel command (the background scan command may block arbitrarily long):
`time.sleep(d)` takes `d`, a command takes `cmdDur c`, the rest take no
modelled time. -/
def Event.dur (cmdDur : MerlinCommand → ℚ) : Event → ℚ
  | Event.sleep d => d
  | Event.send c => cmdDur c
  | _ => 0

/-- Time the caller's thread spends in a trace: the sum of the durations
of its main-thread events (worker events cost the caller nothing). -/
def mainElapsed (cmdDur : MerlinCommand → ℚ) (tr : List TEvent) : ℚ :=
  ((mainEvents tr).map (Event.dur cmdDur)).sum

/-- Number of pool submissions in a trace. -/
def submitCount : List TEvent → Nat
  | [] => 0
  | (_, Event.submit _) :: rest => submitCount rest + 1
  | _ :: rest => submitCount rest

/-- `awaitsJustified subs tr`: every `await fid` in `tr` is preceded (in
`tr`, or already in `subs`) by a `submit fid` — no future is awaited
before it has been submitted. -/
def awaitsJustified (subs : List Nat) : List TEvent → Bool
  | [] => true
  | (_, Event.submit fid) :: rest => awaitsJustified (fid :: subs) rest
  | (_, Event.await fid) :: rest => fid ∈ subs && awaitsJustified subs rest
  | _ :: rest => awaitsJustified subs rest

/-- Filtering a worker-tagged trace for main-thread events yields nothing. -/
theorem filter_isMain_workerMap (tr : List Event) :
    List.filter isMain (List.map (fun e => (Thread.worker, e)) tr) = [] := by
  induction tr with
  | nil => rfl
  | cons e rest ih => simp only [List.map_cons, List.filter_cons]; simp [isMain, ih]

/-- Main-thread projection of a worker-tagged trace is empty. -/
theorem mainEvents_workerMap (tr : List Event) :
    mainEvents (tr.map (fun e => (Thread.worker, e))) = [] := by
  induction tr with
  | nil => rfl
  | cons e rest ih => simp [mainEvents, isMain]

/-- `mainEvents` distributes over concatenation. -/
theorem mainEvents_append (a b : List TEvent) :
    mainEvents (a ++ b) = mainEvents a ++ mainEvents b := by
  simp [mainEvents, List.filter_append]

/-- C8: a freshly constructed `AcquisitionState` (on which
`set_trigger_result` was never called) reads back an absent value (`None`),
not an error. -/
theorem fresh_acquisition_state_reads_none (α : Type) :
    (AcquisitionState.init : AcquisitionState α).get_trigger_result = none := rfl

/-- C3: after any sequence of `set_trigger_result` calls ending with the
handle `r`, reading the trigger result returns exactly `some r`: a later
call silently overwrites any earlier one and no error is ever produced. -/
theorem set_trigger_result_last_call_wins (α : Type) (s : AcquisitionState α)
    (rs : List α) (r : α) :
    (List.foldl AcquisitionState.set_trigger_result s (rs ++ [r])).get_trigger_result
      = some r := by
  simp [List.foldl_append, AcquisitionState.set_trigger_result,
    AcquisitionState.get_trigger_result]

/-- Python's `with c:` guarantee in the embedding: whatever the body does
(succeed or raise), the channel is disconnected afterwards, and the body's
outcome (including a propagating exception) is the scope's outcome. -/
theorem runProg_withChan_closed (fault : FaultModel) (body : PyProg) (st : ChanState) :
    (runProg fault (PyProg.withChan body) st).2.1.connected = false ∧
    (runProg fault (PyProg.withChan body) st).1
      = (runProg fault body { st with connected := true }).1 := by
  rcases hx : runProg fault body { st with connected := true } with ⟨r, st1, tr⟩
  simp [runProg, hx]

/-- C5: on every exit path — normal completion or an exception raised by
any command, as captured by the arbitrary fault model — the control channel
ends up released (closed), both for the setup/arm scope of the run cell and
for the background `do_scan` scope; and an exception from inside the scope
still propagates to the caller. -/
theorem channel_released_on_every_exit_path (fault : FaultModel) (aq : Aq)
    (st : ChanState) :
    (runProg fault (setup_scope_prog aq) st).2.1.connected = false ∧
    (runProg fault do_scan_prog st).2.1.connected = false ∧
    (runProg fault (setup_scope_prog aq) st).1
      = (runProg fault
          (PyProg.seq (merlin_setup_prog (1/1000) 6 none)
          (PyProg.seq microscope_setup_prog
          (PyProg.seq (set_nav_prog aq) arm_prog))) { st with connected := true }).1 := by
  refine ⟨(runProg_withChan_closed fault _ st).1, ?_, (runProg_withChan_closed fault _ st).2⟩
  have h := (runProg_withChan_closed fault (PyProg.send (MerlinCommand.cmd "SOFTTRIGGER")) st).1
  rcases hx : runProg fault (PyProg.withChan (PyProg.send (MerlinCommand.cmd "SOFTTRIGGER"))) st
    with ⟨r, st1, tr⟩
  rw [hx] at h
  simp [do_scan_prog, runProg, hx, h]

/-- C1: for every acquisition descriptor (any `h × w` navigation shape, any
signal shape), any fault model and any command-duration model, `trigger`
submits the background action, stores the returned future in
`AcquisitionState`, and returns successfully; the caller's own thread
observes only the print, the one-second settle sleep and the submission —
never the background action or its result — and spends exactly one second,
however long (`cmdDur`) the background action takes. -/
theorem trigger_returns_without_waiting (fault : FaultModel)
    (cmdDur : MerlinCommand → ℚ) (h w : Nat) (sig : List Nat) (st : SysState) :
    (trigger fault (mkAq h w sig) st).1 = Except.ok () ∧
    (trigger fault (mkAq h w sig) st).2.1.acq.get_trigger_result = some st.pool.nextId ∧
    mainEvents (trigger fault (mkAq h w sig) st).2.2
      = [Event.print "Triggering!", Event.sleep 1, Event.submit st.pool.nextId] ∧
    mainElapsed cmdDur (trigger fault (mkAq h w sig) st).2.2 = 1 := by
  rcases hx : runProg fault do_scan_prog st.chan with ⟨r, chan1, tr⟩
  refine ⟨?_, ?_, ?_, ?_⟩
  · simp [trigger, mkAq, unpack2, PoolState.submit, hx]
  · simp [trigger, mkAq, unpack2, PoolState.submit, hx,
      AcquisitionState.get_trigger_result, AcquisitionState.set_trigger_result]
  · simp [trigger, mkAq, unpack2, PoolState.submit, hx,
      mainEvents_append, mainEvents_workerMap, mainEvents, isMain]
  · simp [trigger, mkAq, unpack2, PoolState.submit, hx, mainElapsed,
      mainEvents_append, mainEvents_workerMap, mainEvents, isMain, Event.dur,
      filter_isMain_workerMap]

/-- C7: what `trigger` submits to the pool is exactly `do_scan` — printing,
then opening the `with c:` channel scope and sending the single
`SOFTTRIGGER` command inside it (as its fault-free execution trace shows) —
and the submission itself immediately yields the future handle
`st.pool.nextId`, which is stored before `trigger` returns. -/
theorem trigger_submits_scoped_soft_trigger_action (fault : FaultModel)
    (h w : Nat) (sig : List Nat) (st : SysState) (ch : ChanState) :
    (trigger fault (mkAq h w sig) st).2.1.pool.tasks
      = st.pool.tasks ++ [(st.pool.nextId, do_scan_prog)] ∧
    do_scan_prog = PyProg.seq (PyProg.print "do_scan()")
      (PyProg.withChan (PyProg.send (MerlinCommand.cmd "SOFTTRIGGER"))) ∧
    (trigger fault (mkAq h w sig) st).2.1.acq.get_trigger_result
      = some st.pool.nextId ∧
    (runProg noFault do_scan_prog ch).2.2
      = [Event.print "do_scan()", Event.chanOpen,
         Event.send (MerlinCommand.cmd "SOFTTRIGGER"), Event.chanClose] := by
  rcases hx : runProg fault do_scan_prog st.chan with ⟨r, chan1, tr⟩
  refine ⟨?_, rfl, ?_, ?_⟩
  · simp [trigger, mkAq, unpack2, PoolState.submit, hx]
  · simp [trigger, mkAq, unpack2, PoolState.submit, hx,
      AcquisitionState.get_trigger_result, AcquisitionState.set_trigger_result]
  · simp [do_scan_prog, runProg, noFault]

/-- C10: the trigger operation treats any two descriptors whose navigation
shape unpacks into two values identically — outcome, state update and the
full observable trace (settle delay, submission of the same scoped
soft-trigger action) are equal: the descriptor's contents never reach the
submitted background action. -/
theorem trigger_ignores_descriptor_contents (fault : FaultModel) (st : SysState)
    (h1 w1 : Nat) (s1 : List Nat) (h2 w2 : Nat) (s2 : List Nat) :
    trigger fault (mkAq h1 w1 s1) st = trigger fault (mkAq h2 w2 s2) st := rfl

/-- Events that are not thread-pool bookkeeping: everything except
`submit` and `await`.  All events produced by running a `PyProg` (prints,
sleeps, channel traffic) are of this kind. -/
def basicEvent : Event → Bool
  | Event.submit _ => false
  | Event.await _ => false
  | _ => true

/-- Running a `PyProg` never emits pool bookkeeping events: submissions
and awaits happen only in `trigger` and in the teardown. -/
theorem runProg_basic (fault : FaultModel) (p : PyProg) (st : ChanState) :
    ∀ e ∈ (runProg fault p st).2.2, basicEvent e = true := by
  induction p generalizing st with
  | skip => simp [runProg]
  | print m => simp [runProg, basicEvent]
  | sleep d => simp [runProg, basicEvent]
  | send c =>
      cases hf : fault c <;> simp [runProg, hf, basicEvent]
  | raiseErr e => simp [runProg]
  | seq a b iha ihb =>
      intro e he
      rcases ha : runProg fault a st with ⟨ra, sta, tra⟩
      have h1 := iha st
      rw [ha] at h1
      cases ra with
      | error err =>
          simp only [runProg, ha] at he
          exact h1 e he
      | ok v =>
          rcases hb2 : runProg fault b sta with ⟨rb, stb, trb⟩
          have h2 := ihb sta
          rw [hb2] at h2
          simp only [runProg, ha, hb2] at he
          simp at he
          rcases he with he | he
          · exact h1 e he
          · exact h2 e he
  | withChan body ih =>
      intro e he
      rcases hb : runProg fault body { st with connected := true } with ⟨rb, stb, trb⟩
      have h1 := ih { st with connected := true }
      rw [hb] at h1
      simp only [runProg, hb] at he
      simp at he
      rcases he with he | he | he
      · subst he; rfl
      · exact h1 e he
      · subst he; rfl

/-- `submitCount` adds up over concatenation. -/
theorem submitCount_append (a b : List TEvent) :
    submitCount (a ++ b) = submitCount a + submitCount b := by
  induction a with
  | nil => simp [submitCount]
  | cons te rest ih =>
      rcases te with ⟨t, e⟩
      cases e <;> (simp [submitCount, ih]; try omega)

/-- A tagged trace of non-bookkeeping events contains no submissions. -/
theorem submitCount_tagged_basic (t : Thread) (tr : List Event)
    (hb : ∀ e ∈ tr, basicEvent e = true) :
    submitCount (tr.map (fun e => (t, e))) = 0 := by
  induction tr with
  | nil => rfl
  | cons e rest ih =>
      have hbe := hb e (by simp)
      have hrest := ih (fun x hx => hb x (by simp [hx]))
      cases e <;> simp_all [submitCount, basicEvent]

/-- Skipping a tagged trace of non-bookkeeping events changes neither the
set of justified awaits nor the verdict. -/
theorem awaitsJustified_tagged_basic (t : Thread) (tr : List Event)
    (hb : ∀ e ∈ tr, basicEvent e = true) :
    ∀ (rest : List TEvent) (subs : List Nat),
    awaitsJustified subs (tr.map (fun e => (t, e)) ++ rest)
      = awaitsJustified subs rest := by
  induction tr with
  | nil => intro rest subs; rfl
  | cons e etl ih =>
      intro rest subs
      have hbe := hb e (by simp)
      have hrest := ih (fun x hx => hb x (by simp [hx]))
      cases e <;> simp_all [awaitsJustified, basicEvent]

/-- The events of the fault-free setup/arm scope of the run cell on a
descriptor of navigation shape `h × w`: open the channel, send the
configuration, set the frame counts to `h * w`, arm, close the channel. -/
def setupEvents (h w : Nat) : List Event :=
  [Event.chanOpen,
   Event.print "Setting Merlin acquisition parameters",
   Event.send (MerlinCommand.set "CONTINUOUSRW" (MVal.num 1)),
   Event.send (MerlinCommand.set "ACQUISITIONTIME" (MVal.num 1)),
   Event.send (MerlinCommand.set "COUNTERDEPTH" (MVal.num 6)),
   Event.send (MerlinCommand.set "TRIGGERSTART" (MVal.num 5)),
   Event.send (MerlinCommand.set "RUNHEADLESS" (MVal.num 1)),
   Event.send (MerlinCommand.set "FILEFORMAT" (MVal.num 2)),
   Event.send (MerlinCommand.set "FILEENABLE" (MVal.num 0)),
   Event.print "Finished Merlin setup.",
   Event.print "Setting resolution...",
   Event.send (MerlinCommand.set "NUMFRAMESTOACQUIRE" (MVal.num ((h * w : Nat) : ℚ))),
   Event.send (MerlinCommand.set "NUMFRAMESPERTRIGGER" (MVal.num ((h * w : Nat) : ℚ))),
   Event.print "Arming Merlin...",
   Event.send (MerlinCommand.cmd "STARTACQUISITION"),
   Event.print "Merlin ready for trigger.",
   Event.chanClose]

/-- The worker-thread events of the background `do_scan` action: print,
open the channel scope, send `SOFTTRIGGER`, close the scope. -/
def scanWorkerEvents : List TEvent :=
  [(Thread.worker, Event.print "do_scan()"),
   (Thread.worker, Event.chanOpen),
   (Thread.worker, Event.send (MerlinCommand.cmd "SOFTTRIGGER")),
   (Thread.worker, Event.chanClose)]

/-- Everything the session does up to and including the acquisition loop:
connect print, setup scope, the trigger (settle sleep, submission of
future 0), the background scan, the frame loop. -/
def preLoopEvents (h w : Nat) : List TEvent :=
  ((Event.print "Connecting Merlin control...") :: setupEvents h w).map
    (fun ev => (Thread.main, ev)) ++
  [(Thread.main, Event.print "Triggering!"), (Thread.main, Event.sleep 1),
   (Thread.main, Event.submit 0)] ++ scanWorkerEvents ++
  [(Thread.main, Event.acqFrames)]

/-- C2: when the background trigger action raises `e` (the `SOFTTRIGGER`
command faults), the submission in `trigger` still returns successfully —
the exception is not observable there — the acquisition loop runs to
completion (`acqFrames`, with its own `ok` outcome untouched), and the
session's trace ends at the teardown's explicit await of future 0, where
`e` is re-raised and becomes the session outcome.  Nothing after the await
runs, and no earlier event observes `e`. -/
theorem background_exception_surfaces_only_at_teardown_await
    (e : PyErr) (h w : Nat) (sig : List Nat) :
    (trigger (softTriggerFault e) (mkAq h w sig) SysState.init).1 = Except.ok () ∧
    runCell (softTriggerFault e) (mkAq h w sig) (Except.ok ())
      = (Except.error e,
         ⟨⟨false⟩, ⟨1, [(0, do_scan_prog)], [(0, Except.error e)]⟩, ⟨some 0⟩⟩,
         preLoopEvents h w ++
         [(Thread.main, Event.print "Waiting for blocking scan function..."),
          (Thread.main, Event.await 0)]) := by
  have hq : (1/1000 : ℚ) * 1000 = 1 := by norm_num
  constructor
  · simp [trigger, mkAq, unpack2, PoolState.submit, runProg, do_scan_prog, SysState.init]
  · simp [runCell, runProg, setup_scope_prog, merlin_setup_prog, microscope_setup_prog,
      set_nav_prog, arm_prog, unpack2, mkAq, run_udf, trigger, PoolState.submit,
      do_scan_prog, teardown, PoolState.awaitResult, softTriggerFault,
      AcquisitionState.set_trigger_result, AcquisitionState.init, SysState.init,
      PoolState.init, setupEvents, scanWorkerEvents, preLoopEvents, hq]

/-- C9: when the acquisition loop itself raises `e`, the teardown's
`finally` still awaits the stored future — the session trace continues
past the loop with the wait print, the await of future 0 and its (clean)
result — and only then does `e` propagate as the session outcome (the
final "Finished." print is skipped). -/
theorem teardown_awaits_stored_handle_even_when_loop_raises
    (e : PyErr) (h w : Nat) (sig : List Nat) :
    runCell noFault (mkAq h w sig) (Except.error e)
      = (Except.error e,
         ⟨⟨false⟩, ⟨1, [(0, do_scan_prog)], [(0, Except.ok ())]⟩, ⟨some 0⟩⟩,
         preLoopEvents h w ++
         [(Thread.main, Event.print "Waiting for blocking scan function..."),
          (Thread.main, Event.await 0),
          (Thread.main, Event.print "result = None")]) := by
  have hq : (1/1000 : ℚ) * 1000 = 1 := by norm_num
  simp [runCell, runProg, setup_scope_prog, merlin_setup_prog, microscope_setup_prog,
    set_nav_prog, arm_prog, unpack2, mkAq, run_udf, trigger, PoolState.submit,
    do_scan_prog, teardown, PoolState.awaitResult, noFault,
    AcquisitionState.set_trigger_result, AcquisitionState.init, SysState.init,
    PoolState.init, setupEvents, scanWorkerEvents, preLoopEvents, hq]

/-- The shape every complete session trace takes once the setup scope
succeeded and the descriptor unpacked: connect print, setup events `tr1`,
the trigger prints/sleep, submission of future 0, the worker's scan events
`wtr`, the frame loop, then a teardown-dependent `tail`. -/
def sessTrace (tr1 wtr : List Event) (tail : List TEvent) : List TEvent :=
  (Thread.main, Event.print "Connecting Merlin control...") ::
  (tr1.map (fun ev => (Thread.main, ev)) ++
    ((Thread.main, Event.print "Triggering!") ::
     (Thread.main, Event.sleep 1) ::
     (Thread.main, Event.submit 0) ::
     (wtr.map (fun ev => (Thread.worker, ev)) ++
      ((Thread.main, Event.acqFrames) :: tail))))

/-- Counting submissions and checking await justification on a session
trace reduces to the teardown tail: the body contributes the single
submission of future 0 and no awaits. -/
theorem sessTrace_counts (tr1 wtr : List Event) (tail : List TEvent)
    (hb1 : ∀ e ∈ tr1, basicEvent e = true)
    (hb2 : ∀ e ∈ wtr, basicEvent e = true) :
    submitCount (sessTrace tr1 wtr tail) = submitCount tail + 1 ∧
    (awaitsJustified [0] tail = true →
      awaitsJustified [] (sessTrace tr1 wtr tail) = true) := by
  have hsc1 : submitCount (tr1.map (fun ev => (Thread.main, ev))) = 0 :=
    submitCount_tagged_basic _ _ hb1
  have hsc2 : submitCount (wtr.map (fun ev => (Thread.worker, ev))) = 0 :=
    submitCount_tagged_basic _ _ hb2
  have haj1 := awaitsJustified_tagged_basic Thread.main tr1 hb1
  have haj2 := awaitsJustified_tagged_basic Thread.worker wtr hb2
  constructor
  · simp only [sessTrace, submitCount, submitCount_append, hsc1, hsc2]
    omega
  · intro ht
    simp [sessTrace, awaitsJustified, haj1, haj2, ht]

/-- C6: in every acquisition session (any fault model, any descriptor, any
loop outcome) at most one trigger action is submitted, and every await of a
stored handle in the session's trace is preceded by the submission of that
very future — `AcquisitionState` is never read for its result before the
trigger action has been submitted, and the `None` case skips the await. -/
theorem single_submission_and_no_await_before_submit (fault : FaultModel) (aq : Aq) (loopResult : Except PyErr Unit) :
    submitCount (runCell fault aq loopResult).2.2 ≤ 1 ∧
    awaitsJustified [] (runCell fault aq loopResult).2.2 = true := by
  rcases h1 : runProg fault (setup_scope_prog aq) SysState.init.chan with ⟨r1, chan1, tr1⟩
  have hb1 := runProg_basic fault (setup_scope_prog aq) SysState.init.chan
  rw [h1] at hb1
  simp only at hb1
  have hsc1 : submitCount (tr1.map (fun ev => (Thread.main, ev))) = 0 :=
    submitCount_tagged_basic _ _ hb1
  have haj1 := awaitsJustified_tagged_basic Thread.main tr1 hb1
  cases r1 with
  | error e =>
      have hcell : (runCell fault aq loopResult).2.2
          = (Thread.main, Event.print "Connecting Merlin control...") ::
              tr1.map (fun ev => (Thread.main, ev)) := by
        simp only [runCell, h1]
      rw [hcell]
      constructor
      · simp only [submitCount, hsc1]
        omega
      · have h := haj1 [] []
        simp only [List.append_nil] at h
        simp [awaitsJustified, h]
  | ok v =>
      cases hu : unpack2 aq.shape.nav with
      | none =>
          have hcell : (runCell fault aq loopResult).2.2
              = (Thread.main, Event.print "Connecting Merlin control...") ::
                  (tr1.map (fun ev => (Thread.main, ev)) ++
                   [(Thread.main, Event.print "Triggering!"),
                    (Thread.main, Event.sleep 1)]) := by
            simp only [runCell, h1]
            simp [run_udf, trigger, hu, teardown, SysState.init, AcquisitionState.init]
          rw [hcell]
          constructor
          · simp only [submitCount, submitCount_append, hsc1]
            simp [submitCount]
          · simp [awaitsJustified, haj1]
      | some hw =>
          rcases h2 : runProg fault do_scan_prog chan1 with ⟨r2, chan2, wtr⟩
          have hb2 := runProg_basic fault do_scan_prog chan1
          rw [h2] at hb2
          simp only at hb2
          cases r2 with
          | error e2 =>
              have hcell : (runCell fault aq loopResult).2.2
                  = sessTrace tr1 wtr
                      [(Thread.main, Event.print "Waiting for blocking scan function..."),
                       (Thread.main, Event.await 0)] := by
                cases loopResult <;>
                  (simp only [runCell, h1]
                   simp [run_udf, trigger, hu, PoolState.submit, h2, teardown,
                     PoolState.awaitResult, SysState.init, AcquisitionState.init,
                     PoolState.init, AcquisitionState.set_trigger_result, sessTrace])
              rw [hcell]
              have hc := sessTrace_counts tr1 wtr
                [(Thread.main, Event.print "Waiting for blocking scan function..."),
                 (Thread.main, Event.await 0)] hb1 hb2
              refine ⟨?_, hc.2 rfl⟩
              rw [hc.1]
              simp [submitCount]
          | ok v2 =>
              cases loopResult with
              | error e3 =>
                  have hcell : (runCell fault aq (Except.error e3)).2.2
                      = sessTrace tr1 wtr
                          [(Thread.main, Event.print "Waiting for blocking scan function..."),
                           (Thread.main, Event.await 0),
                           (Thread.main, Event.print "result = None")] := by
                    simp only [runCell, h1]
                    simp [run_udf, trigger, hu, PoolState.submit, h2, teardown,
                      PoolState.awaitResult, SysState.init, AcquisitionState.init,
                      PoolState.init, AcquisitionState.set_trigger_result, sessTrace]
                  rw [hcell]
                  have hc := sessTrace_counts tr1 wtr
                    [(Thread.main, Event.print "Waiting for blocking scan function..."),
                     (Thread.main, Event.await 0),
                     (Thread.main, Event.print "result = None")] hb1 hb2
                  refine ⟨?_, hc.2 rfl⟩
                  rw [hc.1]
                  simp [submitCount]
              | ok v3 =>
                  have hcell : (runCell fault aq (Except.ok v3)).2.2
                      = sessTrace tr1 wtr
                          [(Thread.main, Event.print "Waiting for blocking scan function..."),
                           (Thread.main, Event.await 0),
                           (Thread.main, Event.print "result = None"),
                           (Thread.main, Event.print "Finished.")] := by
                    simp only [runCell, h1]
                    simp [run_udf, trigger, hu, PoolState.submit, h2, teardown,
                      PoolState.awaitResult, SysState.init, AcquisitionState.init,
                      PoolState.init, AcquisitionState.set_trigger_result, sessTrace]
                  rw [hcell]
                  have hc := sessTrace_counts tr1 wtr
                    [(Thread.main, Event.print "Waiting for blocking scan function..."),
                     (Thread.main, Event.await 0),
                     (Thread.main, Event.print "result = None"),
                     (Thread.main, Event.print "Finished.")] hb1 hb2
                  refine ⟨?_, hc.2 rfl⟩
                  rw [hc.1]
                  simp [submitCount]

/-- A thread pool seen as a scheduler: `max_workers` worker slots
(`ThreadPoolExecutor(1)` has one), a FIFO queue of submitted task ids,
the tasks currently executing, and the finished ones. -/
structure ExecState where
  max_workers : Nat
  queued : List Nat
  running : List Nat
  done : List Nat
deriving DecidableEq, Repr

/-- Scheduler events: a task starts executing on a worker, or finishes. -/
inductive SchedEv
  | start (t : Nat)
  | finish (t : Nat)
deriving DecidableEq, Repr

/-- One scheduler step: the head of the FIFO queue may start whenever a
worker slot is free (`running.length < max_workers`); any running task may
finish.  Timing is otherwise arbitrary — this over-approximates every real
interleaving of the pool's workers. -/
inductive SchedStep : ExecState → SchedEv → ExecState → Prop
  | start (mw : Nat) (t : Nat) (q r d : List Nat) :
      r.length < mw →
      SchedStep ⟨mw, t :: q, r, d⟩ (SchedEv.start t) ⟨mw, q, t :: r, d⟩
  | finish (mw t : Nat) (q r d : List Nat) :
      t ∈ r →
      SchedStep ⟨mw, q, r, d⟩ (SchedEv.finish t) ⟨mw, q, r.erase t, t :: d⟩

/-- A scheduler execution: a sequence of steps with its event trace. -/
inductive SchedRun : ExecState → List SchedEv → ExecState → Prop
  | nil (s : ExecState) : SchedRun s [] s
  | cons {s s1 s2 : ExecState} {e : SchedEv} {evs : List SchedEv} :
      SchedStep s e s1 → SchedRun s1 evs s2 → SchedRun s (e :: evs) s2

/-- The pool of the notebook (`ThreadPoolExecutor(1)`, one worker slot)
after two trigger actions `t1`, `t2` were submitted back-to-back. -/
def execInit (t1 t2 : Nat) : ExecState :=
  ⟨pool_max_workers, [t1, t2], [], []⟩

/-- A step never changes the worker count and never pushes the number of
running tasks above it. -/
theorem schedStep_bound {s : ExecState} {e : SchedEv} {s' : ExecState}
    (h : SchedStep s e s') :
    s'.max_workers = s.max_workers ∧
    (s.running.length ≤ s.max_workers → s'.running.length ≤ s.max_workers) := by
  cases h with
  | start mw t q r d hlt => exact ⟨rfl, fun _ => hlt⟩
  | finish mw t q r d hmem =>
      refine ⟨rfl, fun hle => le_trans ?_ hle⟩
      simpa using List.length_erase_le t r

/-- The worker-count bound on running tasks is an invariant of every run. -/
theorem schedRun_bound {s : ExecState} {tr : List SchedEv} {s' : ExecState}
    (h : SchedRun s tr s') :
    s'.max_workers = s.max_workers ∧
    (s.running.length ≤ s.max_workers → s'.running.length ≤ s.max_workers) := by
  induction h with
  | nil s0 => exact ⟨rfl, fun hle => hle⟩
  | cons hstep hrest ih =>
      have h1 := schedStep_bound hstep
      refine ⟨ih.1.trans h1.1, fun hle => ?_⟩
      have h2 := h1.2 hle
      have h3 := ih.2
      rw [h1.1] at h3
      exact h3 h2

/-- With a single worker slot, the second queued task can only start after
the first has finished: from the two reachable pre-start configurations,
every trace putting `start t2` anywhere contains `finish t1` before it. -/
theorem sched_second_starts_after_first_finishes (t1 t2 : Nat) (hne : t1 ≠ t2) :
    ∀ (s : ExecState) (tr : List SchedEv) (s' : ExecState), SchedRun s tr s' →
    (s = ⟨1, [t1, t2], [], []⟩ ∨ s = ⟨1, [t2], [t1], []⟩) →
    ∀ a b, tr = a ++ SchedEv.start t2 :: b → SchedEv.finish t1 ∈ a := by
  intro s tr s' hrun
  induction hrun with
  | nil s0 =>
      intro _ a b heq
      rcases a with _ | ⟨x, xs⟩ <;> simp at heq
  | cons hstep hrest ih =>
      intro hs a b heq
      rcases hs with rfl | rfl
      · cases hstep with
        | start mw t q r d hlt =>
            rcases a with _ | ⟨x, xs⟩
            · simp at heq
              exact absurd heq.1 hne
            · simp at heq
              rcases heq with ⟨rfl, heq2⟩
              have hmem := ih (Or.inr rfl) xs b heq2
              simp [hmem]
        | finish mw t q r d hmem => simp at hmem
      · cases hstep with
        | start mw t q r d hlt => simp at hlt
        | finish mw t q r d hmem =>
            simp at hmem
            subst hmem
            rcases a with _ | ⟨x, xs⟩
            · simp at heq
            · simp at heq
              rcases heq with ⟨rfl, heq2⟩
              simp

/-- C4: the background execution context has exactly one worker
(`pool = concurrent.futures.ThreadPoolExecutor(1)`), so in any execution
from two back-to-back submissions at most one trigger action runs at any
point, and the second submitted action starts only after the first has
finished — it queues behind it. -/
theorem single_worker_serializes_trigger_actions (t1 t2 : Nat) (hne : t1 ≠ t2)
    (tr : List SchedEv) (s' : ExecState)
    (hrun : SchedRun (execInit t1 t2) tr s') :
    pool_max_workers = 1 ∧ s'.running.length ≤ 1 ∧
    ∀ a b, tr = a ++ SchedEv.start t2 :: b → SchedEv.finish t1 ∈ a := by
  refine ⟨rfl, ?_, ?_⟩
  · have h := schedRun_bound hrun
    have h2 := h.2 (by simp [execInit, pool_max_workers])
    simpa [execInit, pool_max_workers] using h2
  · exact sched_second_starts_after_first_finishes t1 t2 hne _ tr s' hrun (Or.inl rfl)

/-- Witness for C4 at a concrete schedule: tasks `0` and `1`, the run
`start 0, finish 0, start 1`; the theorem yields that `finish 0` precedes
`start 1`. -/
theorem single_worker_serializes_trigger_actions_witness :
    SchedEv.finish 0 ∈ [SchedEv.start 0, SchedEv.finish 0] := by
  have hrun : SchedRun (execInit 0 1)
      [SchedEv.start 0, SchedEv.finish 0, SchedEv.start 1] ⟨1, [], [1], [0]⟩ :=
    SchedRun.cons (SchedStep.start 1 0 [1] [] [] (by decide))
      (SchedRun.cons (SchedStep.finish 1 0 [1] [0] [] (by simp))
        (SchedRun.cons (SchedStep.start 1 1 [] [] [0] (by decide)) (SchedRun.nil _)))
  exact (single_worker_serializes_trigger_actions 0 1 (by decide) _ _ hrun).2.2
    [SchedEv.start 0, SchedEv.finish 0] [] rfl
